import Mathlib

/-!
Verification development for the Code Gems project updater
(`lib/project-updater.ts` together with `lib/github-api.ts`).

The TypeScript code is embedded shallowly:

* machine state (the module-level `rateLimitState` and `updateQueue`)
  becomes an explicit `GlobalState` record threaded through the model;
* every external interaction (Supabase queries/writes, GitHub fetches,
  and the possibility that an `await` rejects) is decided by an explicit
  environment (`ProjectEnv`, `BatchEnv`);
* every call the code issues to the datastore or to GitHub is recorded
  in an effect trace (`Effect`), so that frame properties ("no call was
  made") are expressible;
* the `try/catch` structure of the per-project loop is mirrored by
  `tryBody` (the `try` block, returning `Except`) and `runBody`
  (the `catch` handler around it);
* JavaScript numbers for quotas/timestamps are modelled as `Nat`
  (`Math.max(0, r - 1)` becomes truncated subtraction), and timestamp
  strings as `Nat` seconds.
-/

namespace Codegems

/-- Rate limit information parsed from GitHub response headers
(`GitHubRateLimit` in `lib/github-api.ts`). -/
structure GitHubRateLimit where
  limit : Nat
  remaining : Nat
  reset : Nat
deriving Repr, DecidableEq

/-- The three `x-ratelimit-*` response headers, already parsed to numbers;
`none` models an absent header. -/
structure Headers where
  xRateLimitLimit : Option Nat
  xRateLimitRemaining : Option Nat
  xRateLimitReset : Option Nat
deriving Repr, DecidableEq

/-- `parseRateLimitFromHeaders` in `lib/github-api.ts`: missing headers
default to `60` / `0` / `0`. -/
def parseRateLimitFromHeaders (h : Headers) : GitHubRateLimit :=
  { limit := h.xRateLimitLimit.getD 60
    remaining := h.xRateLimitRemaining.getD 0
    reset := h.xRateLimitReset.getD 0 }

/-- The repository-metadata JSON body fields the updater reads. -/
structure RepoResponse where
  ok : Bool
  headers : Headers
  stargazers_count : Nat
  forks_count : Nat
  description : Option String
  languages_url : Option String
deriving Repr, DecidableEq

/-- What the network does for one repository-metadata fetch: the fetch
promise rejects (`throws`, caught inside `fetchGitHubRepository`), or a
response arrives. -/
inductive FetchOutcome where
  | throws
  | responds (resp : RepoResponse)
deriving Repr, DecidableEq

/-- Calls the updater issues to its collaborators.  An effect records that
the call was *issued*; `dbUpdateProject` carries the values the update
statement carries. -/
inductive Effect where
  | dbSelect (limit : Nat)
  | dbUpsertInProgress (name : String)
  | dbWriteFailed (name : String) (error : String)
  | dbWriteCompleted (name : String)
  | dbUpdateProject (name : String) (stars forks : Nat) (description : String)
      (languages : List (String × Nat)) (lastUpdated : Nat)
  | ghFetchRepo (url : String)
  | ghFetchLangs (url : String)
deriving Repr, DecidableEq

/-- The value `fetchGitHubRepository` hands back to the caller on success:
the body fields plus the `_rateLimit` attachment (`Option`, because the
caller tests `if (repoData._rateLimit)`). -/
structure GitHubRepoData where
  stargazers_count : Nat
  forks_count : Nat
  description : Option String
  languages_url : Option String
  rateLimit : Option GitHubRateLimit
deriving Repr, DecidableEq

/-- Drops the first occurrence of `pat` from the character list, as the
JavaScript `String.prototype.replace` with a string pattern and an empty
replacement does. -/
def replaceFirst (pat : List Char) : List Char → List Char
  | [] => []
  | c :: rest =>
    if pat.isPrefixOf (c :: rest) then (c :: rest).drop pat.length
    else c :: replaceFirst pat rest

/-- Splits a character list on `'/'`, as `split('/')` does (an empty
input yields one empty part). -/
def splitSlash : List Char → List (List Char)
  | [] => [[]]
  | c :: rest =>
    if c = '/' then [] :: splitSlash rest
    else
      match splitSlash rest with
      | [] => [[c]]
      | part :: parts => (c :: part) :: parts

/-- `repoUrl.replace('https://github.com/', '').split('/')`. -/
def urlPartsOf (repoUrl : String) : List String :=
  (splitSlash (replaceFirst "https://github.com/".toList repoUrl.toList)).map
    List.asString

/-- `fetchGitHubRepository` in `lib/github-api.ts`.  Converts the web URL
to the API URL; a URL with fewer than two path parts yields `null` with no
network call; otherwise the GET is issued, and a non-ok status or a
rejected fetch yields `null` (the `catch` swallows the error).  On success
the parsed rate-limit headers ride along as `_rateLimit`. -/
def fetchGitHubRepository (repoUrl : String) (env : FetchOutcome) :
    Option GitHubRepoData × List Effect :=
  let urlParts := urlPartsOf repoUrl
  if urlParts.length < 2 then (none, [])
  else
    let owner := urlParts.getD 0 ""
    let repo := urlParts.getD 1 ""
    let apiUrl := "https://api.github.com/repos/" ++ owner ++ "/" ++ repo
    match env with
    | .throws => (none, [.ghFetchRepo apiUrl])
    | .responds resp =>
      let rateLimit := parseRateLimitFromHeaders resp.headers
      if !resp.ok then (none, [.ghFetchRepo apiUrl])
      else
        (some { stargazers_count := resp.stargazers_count
                forks_count := resp.forks_count
                description := resp.description
                languages_url := resp.languages_url
                rateLimit := some rateLimit }, [.ghFetchRepo apiUrl])

/-- A response to the languages fetch. -/
structure LangResponse where
  ok : Bool
  headers : Headers
  body : List (String × Nat)
deriving Repr, DecidableEq

/-- Network behaviour of one languages fetch. -/
inductive LangFetchOutcome where
  | throws
  | responds (resp : LangResponse)
deriving Repr, DecidableEq

/-- `fetchRepositoryLanguages` in `lib/github-api.ts`.  A rejected fetch or
a non-ok status returns the empty mapping with *no* `_rateLimit`
attachment; on success the body rides along with the parsed headers. -/
def fetchRepositoryLanguages (languagesUrl : String) (env : LangFetchOutcome) :
    (List (String × Nat) × Option GitHubRateLimit) × List Effect :=
  match env with
  | .throws => (([], none), [.ghFetchLangs languagesUrl])
  | .responds resp =>
    let rateLimit := parseRateLimitFromHeaders resp.headers
    if !resp.ok then (([], none), [.ghFetchLangs languagesUrl])
    else ((resp.body, some rateLimit), [.ghFetchLangs languagesUrl])

/-- `RateLimitState` in `lib/project-updater.ts`. -/
structure RateLimitState where
  remaining : Nat
  reset : Nat
  lastChecked : Nat
deriving Repr, DecidableEq

/-- `UpdateQueue` in `lib/project-updater.ts`. -/
structure UpdateQueue where
  isProcessing : Bool
  lastRun : Nat
  currentBatchSize : Nat
deriving Repr, DecidableEq

/-- The module-level mutable state of `lib/project-updater.ts`. -/
structure GlobalState where
  rateLimit : RateLimitState
  queue : UpdateQueue
deriving Repr, DecidableEq

/-- One row of the candidate query (`select('name, url, last_updated')`). -/
structure Candidate where
  name : String
  url : String
  last_updated : Option Nat
deriving Repr, DecidableEq

/-- The environment deciding each externally-determined step while one
project is processed.  `Except.error msg` at a datastore step means the
corresponding `await` rejects with an `Error` whose message is `msg`;
`updateProject`'s `Except.ok (some e)` means the update call resolved but
reported a database error `e`. -/
structure ProjectEnv where
  upsertInProgress : Except String Unit
  fetchRepo : FetchOutcome
  writeFailedNull : Except String Unit
  fetchLangs : LangFetchOutcome
  updateProject : Except String (Option String)
  writeFailedDb : Except String Unit
  writeCompleted : Except String Unit
  catchWrite : Except String Unit
deriving Repr

/-- The updater's header handling after each GitHub call: if `_rateLimit`
is present, overwrite `remaining`/`reset` and stamp `lastChecked`;
otherwise `remaining = Math.max(0, remaining - 1)`. -/
def updateFromHeaders (now : Nat) (rl : RateLimitState)
    (info : Option GitHubRateLimit) : RateLimitState :=
  match info with
  | some i => { remaining := i.remaining, reset := i.reset, lastChecked := now }
  | none => { rl with remaining := rl.remaining - 1 }

/-- JavaScript truthiness of an optional string (`undefined` and `""` are
falsy). -/
def jsTruthy : Option String → Bool
  | none => false
  | some s => !(s == "")

/-- Outcome of the `try` block of the per-project loop body: `Except.error`
means an exception with the given message reached the `catch` clause.
Either way the rate-limit state and the trace of issued calls so far are
carried along. -/
abbrev TryResult :=
  Except (RateLimitState × List Effect × String) (RateLimitState × List Effect × Bool)

/-- The `try` block of the per-project loop in `processProjectUpdates`:
upsert the `in_progress` marker, fetch the repository, on `null` record a
failure and finish (the `continue`), otherwise fold the rate-limit headers
into the state, fetch languages when `languages_url` is truthy, update the
project row, and record `failed` or `completed`.  The `Bool` result is
whether `processedCount` was incremented. -/
def tryBody (now : Nat) (p : Candidate) (env : ProjectEnv) (rl : RateLimitState) :
    TryResult :=
  match env.upsertInProgress with
  | .error msg => .error (rl, [.dbUpsertInProgress p.name], msg)
  | .ok _ =>
    let tr1 : List Effect := [.dbUpsertInProgress p.name]
    let fetched := fetchGitHubRepository p.url env.fetchRepo
    let tr2 := tr1 ++ fetched.2
    match fetched.1 with
    | none =>
      let tr3 := tr2 ++ [.dbWriteFailed p.name "Failed to fetch repository data"]
      match env.writeFailedNull with
      | .error msg => .error (rl, tr3, msg)
      | .ok _ => .ok (rl, tr3, false)
    | some repoData =>
      let rl1 := updateFromHeaders now rl repoData.rateLimit
      let langStep :=
        if jsTruthy repoData.languages_url then
          let lf := fetchRepositoryLanguages (repoData.languages_url.getD "") env.fetchLangs
          (lf.1.1, updateFromHeaders now rl1 lf.1.2, lf.2)
        else (([] : List (String × Nat)), rl1, ([] : List Effect))
      let languages := langStep.1
      let rl2 := langStep.2.1
      let tr3 := tr2 ++ langStep.2.2
      let tr4 := tr3 ++ [.dbUpdateProject p.name repoData.stargazers_count
        repoData.forks_count (repoData.description.getD "") languages now]
      match env.updateProject with
      | .error msg => .error (rl2, tr4, msg)
      | .ok (some emsg) =>
        let tr5 := tr4 ++ [.dbWriteFailed p.name ("Database update error: " ++ emsg)]
        match env.writeFailedDb with
        | .error msg => .error (rl2, tr5, msg)
        | .ok _ => .ok (rl2, tr5, false)
      | .ok none =>
        let tr5 := tr4 ++ [.dbWriteCompleted p.name]
        match env.writeCompleted with
        | .error msg => .error (rl2, tr5, msg)
        | .ok _ => .ok (rl2, tr5, true)

/-- Result of one loop-body execution including the `catch` clause:
`done` means control reaches the next iteration, `raised` means an
exception escaped the body (only possible when the failure write inside
the `catch` clause itself rejects). -/
inductive BodyResult where
  | done (rl : RateLimitState) (tr : List Effect) (counted : Bool)
  | raised (rl : RateLimitState) (tr : List Effect) (msg : String)
deriving Repr, DecidableEq

/-- The rate-limit state a body execution ends with. -/
def BodyResult.rlOf : BodyResult → RateLimitState
  | .done rl _ _ => rl
  | .raised rl _ _ => rl

/-- The trace of a body execution. -/
def BodyResult.trOf : BodyResult → List Effect
  | .done _ tr _ => tr
  | .raised _ tr _ => tr

/-- Whether the body completed without an escaping exception. -/
def BodyResult.isDone : BodyResult → Bool
  | .done _ _ _ => true
  | .raised _ _ _ => false

/-- One iteration of the per-project loop: the `try` block, and on an
exception the `catch` clause, which writes a `failed` record with the
exception's message; if that write itself rejects, the new exception
escapes the loop. -/
def runBody (now : Nat) (p : Candidate) (env : ProjectEnv) (rl : RateLimitState) :
    BodyResult :=
  match tryBody now p env rl with
  | .ok (rl2, tr, counted) => .done rl2 tr counted
  | .error (rl2, tr, msg) =>
    match env.catchWrite with
    | .ok _ => .done rl2 (tr ++ [.dbWriteFailed p.name msg]) false
    | .error m2 => .raised rl2 (tr ++ [.dbWriteFailed p.name msg]) m2

/-- Aggregate outcome of the per-project loop.  `escaped = some m` means an
exception with message `m` escaped the loop towards the outer `catch`. -/
structure LoopOut where
  rl : RateLimitState
  count : Nat
  trace : List Effect
  escaped : Option String
deriving Repr, DecidableEq

/-- The `for (const project of projectsToUpdate)` loop: at the top of each
iteration the quota check `remaining <= 1` breaks out; otherwise the body
runs, and an escaping exception aborts the loop.  `penvs i` is the
environment of the `i`-th candidate. -/
def runLoop (now : Nat) (penvs : Nat → ProjectEnv) :
    Nat → List Candidate → RateLimitState → Nat → LoopOut
  | _, [], rl, count => ⟨rl, count, [], none⟩
  | idx, p :: rest, rl, count =>
    if rl.remaining ≤ 1 then ⟨rl, count, [], none⟩
    else
      match runBody now p (penvs idx) rl with
      | .done rl2 tr counted =>
        let out := runLoop now penvs (idx + 1) rest rl2
          (count + (if counted then 1 else 0))
        ⟨out.rl, out.count, tr ++ out.trace, out.escaped⟩
      | .raised rl2 tr msg => ⟨rl2, count, tr, some msg⟩

/-- The staleness filter of the candidate query:
`last_updated.is.null` or `last_updated.lt.<24h ago>`. -/
def isStale (yesterday : Nat) (c : Candidate) : Bool :=
  match c.last_updated with
  | none => true
  | some t => t < yesterday

/-- The candidate ordering requested from the datastore:
`order('last_updated', ascending: true, nullsFirst: true)`. -/
def candLE (a b : Candidate) : Prop :=
  match a.last_updated, b.last_updated with
  | none, _ => True
  | some _, none => False
  | some x, some y => x ≤ y

instance decCandLE : DecidableRel candLE := fun a b =>
  match a, b with
  | ⟨_, _, none⟩, _ => isTrue trivial
  | ⟨_, _, some _⟩, ⟨_, _, none⟩ => isFalse (fun h => h)
  | ⟨_, _, some x⟩, ⟨_, _, some y⟩ => inferInstanceAs (Decidable (x ≤ y))

instance totalCandLE : IsTotal Candidate candLE where
  total a b := by
    rcases a with ⟨_, _, _ | x⟩ <;> rcases b with ⟨_, _, _ | y⟩
    · exact Or.inl trivial
    · exact Or.inl trivial
    · exact Or.inr trivial
    · exact (Nat.le_total x y).imp id id

instance transCandLE : IsTrans Candidate candLE where
  trans a b c hab hbc := by
    rcases a with ⟨_, _, _ | x⟩ <;> rcases b with ⟨_, _, _ | y⟩ <;>
      rcases c with ⟨_, _, _ | z⟩ <;> simp_all [candLE]
    omega

/-- Semantics of the candidate query the updater issues: keep the stale
rows, order them nulls-first then oldest-first, and cap at `limit`. -/
def selectCandidates (table : List Candidate) (yesterday : Nat) (limit : Nat) :
    List Candidate :=
  (List.insertionSort candLE (table.filter (isStale yesterday))).take limit

/-- The result record of `processProjectUpdates`; `nextReset = none`
models the `null` branch of `rateLimitState.reset ? new Date(...) : null`. -/
structure BatchResult where
  processedCount : Nat
  success : Bool
  rateLimitRemaining : Nat
  nextReset : Option Nat
deriving Repr, DecidableEq

/-- The environment of one batch run: the current time (seconds), the
contents of the `projects` table, whether the candidate select reports an
error, and the per-candidate environments. -/
structure BatchEnv where
  now : Nat
  table : List Candidate
  queryError : Option String
  penvs : Nat → ProjectEnv

/-- Everything a run of `processProjectUpdates` produces: the returned
record, the final module state, and the calls issued. -/
structure RunOut where
  result : BatchResult
  state : GlobalState
  trace : List Effect

/-- `rateLimitState.reset ? new Date(reset * 1000) : null`. -/
def mkNextReset (reset : Nat) : Option Nat :=
  if reset = 0 then none else some reset

/-- The candidate list a batch run iterates over. -/
def candidatesOf (batchSize : Nat) (env : BatchEnv) : List Candidate :=
  selectCandidates env.table (env.now - 86400) (min batchSize 10)

/-- The part of `processProjectUpdates` after the single-flight and
rate-limit entry checks: issue the candidate select (capped at
`min(batchSize, 10)`), abort on a query error, return success on an empty
candidate list, otherwise run the loop; an exception escaping the loop is
handled by the outer `catch` (`processedCount: 0, success: false`), and
the `finally` clause clears `isProcessing` on every path.  `lastRun` is
stamped only on normal completion. -/
def mainPhase (batchSize : Nat) (rl : RateLimitState) (q : UpdateQueue)
    (env : BatchEnv) : RunOut :=
  let selTr : List Effect := [.dbSelect (min batchSize 10)]
  match env.queryError with
  | some _ =>
    { result := ⟨0, false, rl.remaining, mkNextReset rl.reset⟩
      state := ⟨rl, { q with isProcessing := false }⟩
      trace := selTr }
  | none =>
    let projectsToUpdate := candidatesOf batchSize env
    if projectsToUpdate.isEmpty then
      { result := ⟨0, true, rl.remaining, mkNextReset rl.reset⟩
        state := ⟨rl, { q with isProcessing := false }⟩
        trace := selTr }
    else
      let out := runLoop env.now env.penvs 0 projectsToUpdate rl 0
      match out.escaped with
      | some _ =>
        { result := ⟨0, false, out.rl.remaining, mkNextReset out.rl.reset⟩
          state := ⟨out.rl, { q with isProcessing := false }⟩
          trace := selTr ++ out.trace }
      | none =>
        { result := ⟨out.count, true, out.rl.remaining, mkNextReset out.rl.reset⟩
          state := ⟨out.rl, { q with isProcessing := false, lastRun := env.now }⟩
          trace := selTr ++ out.trace }

/-- `processProjectUpdates` in `lib/project-updater.ts`.  A busy guard
returns immediately; otherwise the guard is taken, the entry rate-limit
check either rejects (reset still in the future) or resets the counter to
60 (reset passed), and the main phase runs. -/
def processProjectUpdates (st : GlobalState) (env : BatchEnv)
    (batchSize : Nat := 5) : RunOut :=
  if st.queue.isProcessing then
    { result := ⟨0, false, st.rateLimit.remaining, mkNextReset st.rateLimit.reset⟩
      state := st
      trace := [] }
  else
    let q0 := { st.queue with isProcessing := true, currentBatchSize := batchSize }
    let rl0 := st.rateLimit
    if rl0.remaining ≤ 1 then
      if env.now < rl0.reset then
        { result := ⟨0, false, rl0.remaining, some rl0.reset⟩
          state := ⟨rl0, { q0 with isProcessing := false }⟩
          trace := [] }
      else
        mainPhase batchSize { rl0 with remaining := 60 } q0 env
    else
      mainPhase batchSize rl0 q0 env

/-- The rate-limit state in force when the main phase starts, given the
state at entry (the entry check resets an exhausted counter to 60 once the
recorded reset time has passed). -/
def rlAfterCheck (st : GlobalState) : RateLimitState :=
  if st.rateLimit.remaining ≤ 1 then { st.rateLimit with remaining := 60 }
  else st.rateLimit

/-- Recognises the `in_progress` upsert among issued calls. -/
def isUpsertE : Effect → Bool
  | .dbUpsertInProgress _ => true
  | _ => false

/-- Number of candidates for which processing was started (each loop body
issues exactly one `in_progress` upsert, first). -/
def attempts (tr : List Effect) : Nat :=
  tr.countP isUpsertE

/-- Recognises an update of the named project's `projects` row. -/
def updatesRow (name : String) : Effect → Bool
  | .dbUpdateProject n _ _ _ _ _ => n == name
  | _ => false

/-- The trace accumulated inside the `try` block, whichever way it ends. -/
def tryTrace : TryResult → List Effect
  | .ok (_, tr, _) => tr
  | .error (_, tr, _) => tr

/-! Concrete states and environments used to instantiate the theorems. -/

/-- A project environment in which every external step succeeds blandly. -/
def peTrivial : ProjectEnv :=
  ⟨.ok (), .throws, .ok (), .throws, .ok none, .ok (), .ok (), .ok ()⟩

/-- Module state with a full quota and a free guard. -/
def stIdle : GlobalState := ⟨⟨60, 0, 0⟩, ⟨false, 0, 5⟩⟩

/-- Module state in which another batch currently holds the guard. -/
def stBusy : GlobalState := ⟨⟨60, 0, 0⟩, ⟨true, 0, 5⟩⟩

/-- A batch environment with an empty table. -/
def envTrivial : BatchEnv := ⟨1000000, [], none, fun _ => peTrivial⟩

/-- Two never-refreshed candidate projects. -/
def cand1 : Candidate := ⟨"p1", "https://github.com/u/r1", none⟩

/-- Second candidate, behind `cand1` in the queue. -/
def cand2 : Candidate := ⟨"p2", "https://github.com/u/r2", none⟩

/-- A successful metadata response whose headers report one remaining
request, and no languages endpoint. -/
def respQuotaLow : RepoResponse :=
  ⟨true, ⟨some 60, some 1, some 5555⟩, 10, 2, some "d", none⟩

/-- Per-project environment for the quota-exhaustion scenario. -/
def peQuotaLow : ProjectEnv :=
  ⟨.ok (), .responds respQuotaLow, .ok (), .throws, .ok none, .ok (), .ok (), .ok ()⟩

/-- Batch environment with two stale candidates whose first fetch drains
the quota to 1. -/
def envQuotaLow : BatchEnv := ⟨1000000, [cand1, cand2], none, fun _ => peQuotaLow⟩

/-- A failed (HTTP 403-style) metadata response whose headers nonetheless
report the true remaining quota. -/
def respDenied : RepoResponse :=
  ⟨false, ⟨some 60, some 5, some 999⟩, 0, 0, none, none⟩

/-- Per-project environment whose metadata fetch fails. -/
def peDenied : ProjectEnv :=
  ⟨.ok (), .responds respDenied, .ok (), .throws, .ok none, .ok (), .ok (), .ok ()⟩

/-- Batch environment with one candidate whose fetch is denied. -/
def envDenied : BatchEnv := ⟨1000000, [cand1], none, fun _ => peDenied⟩

/-- A successful metadata response advertising a languages endpoint. -/
def respWithLangs : RepoResponse :=
  ⟨true, ⟨some 60, some 30, some 777⟩, 10, 2, some "d",
    some "https://api.github.com/repos/u/r1/languages"⟩

/-- A successful languages response. -/
def respLangs : LangResponse :=
  ⟨true, ⟨some 60, some 29, some 778⟩, [("TypeScript", 1234)]⟩

/-- Per-project environment where both fetches succeed. -/
def peBothOk : ProjectEnv :=
  ⟨.ok (), .responds respWithLangs, .ok (), .responds respLangs,
    .ok none, .ok (), .ok (), .ok ()⟩

/-- Batch environment for the two-successful-fetches scenario. -/
def envBothOk : BatchEnv := ⟨1000000, [cand1], none, fun _ => peBothOk⟩

/-- Per-project environment whose `projects`-row update rejects
(the `await` throws with message `boom`). -/
def peThrows : ProjectEnv :=
  ⟨.ok (), .responds respWithLangs, .ok (), .responds respLangs,
    .error "boom", .ok (), .ok (), .ok ()⟩

/-- Batch environment with two candidates whose second candidate's
processing throws; the exception is caught per-project. -/
def envThrows : BatchEnv :=
  ⟨1000000, [cand1, cand2], none, fun i => if i = 0 then peBothOk else peThrows⟩

/-- Per-project environment where processing throws and the failure write
inside the `catch` clause also rejects, so the exception escapes. -/
def peEscapes : ProjectEnv :=
  ⟨.ok (), .responds respWithLangs, .ok (), .responds respLangs,
    .error "boom", .ok (), .ok (), .error "catch write failed"⟩

/-- Batch environment where the first candidate succeeds and the second
candidate's processing lets an exception escape the loop. -/
def envEscapes : BatchEnv :=
  ⟨1000000, [cand1, cand2], none, fun i => if i = 0 then peBothOk else peEscapes⟩

/-- Batch environment whose candidate select reports a datastore error. -/
def envQueryErr : BatchEnv := ⟨1000000, [cand1], some "db down", fun _ => peTrivial⟩

/-- Module state with an exhausted quota whose reset time has passed. -/
def stExhausted : GlobalState := ⟨⟨1, 500, 400⟩, ⟨false, 0, 5⟩⟩

/-! ### Basic unfolding lemmas -/

theorem runLoop_nil (now : Nat) (penvs : Nat → ProjectEnv) (idx : Nat)
    (rl : RateLimitState) (count : Nat) :
    runLoop now penvs idx [] rl count = ⟨rl, count, [], none⟩ := rfl

theorem runLoop_break (now : Nat) (penvs : Nat → ProjectEnv) (idx : Nat)
    (p : Candidate) (rest : List Candidate) (rl : RateLimitState) (count : Nat)
    (h : rl.remaining ≤ 1) :
    runLoop now penvs idx (p :: rest) rl count = ⟨rl, count, [], none⟩ := by
  rw [runLoop, if_pos h]

theorem runLoop_cons (now : Nat) (penvs : Nat → ProjectEnv) (idx : Nat)
    (p : Candidate) (rest : List Candidate) (rl : RateLimitState) (count : Nat)
    (h : 1 < rl.remaining) :
    runLoop now penvs idx (p :: rest) rl count =
      match runBody now p (penvs idx) rl with
      | .done rl2 tr counted =>
        let out := runLoop now penvs (idx + 1) rest rl2
          (count + (if counted then 1 else 0))
        ⟨out.rl, out.count, tr ++ out.trace, out.escaped⟩
      | .raised rl2 tr msg => ⟨rl2, count, tr, some msg⟩ := by
  rw [runLoop, if_neg (Nat.not_le.mpr h)]

theorem runLoop_cons_done (now : Nat) (penvs : Nat → ProjectEnv) (idx : Nat)
    (p : Candidate) (rest : List Candidate) (rl : RateLimitState) (count : Nat)
    (rl2 : RateLimitState) (tr : List Effect) (counted : Bool)
    (h : 1 < rl.remaining)
    (hb : runBody now p (penvs idx) rl = .done rl2 tr counted) :
    runLoop now penvs idx (p :: rest) rl count =
      ⟨(runLoop now penvs (idx + 1) rest rl2
          (count + (if counted then 1 else 0))).rl,
       (runLoop now penvs (idx + 1) rest rl2
          (count + (if counted then 1 else 0))).count,
       tr ++ (runLoop now penvs (idx + 1) rest rl2
          (count + (if counted then 1 else 0))).trace,
       (runLoop now penvs (idx + 1) rest rl2
          (count + (if counted then 1 else 0))).escaped⟩ := by
  rw [runLoop, if_neg (Nat.not_le.mpr h), hb]

theorem runLoop_cons_raised (now : Nat) (penvs : Nat → ProjectEnv) (idx : Nat)
    (p : Candidate) (rest : List Candidate) (rl : RateLimitState) (count : Nat)
    (rl2 : RateLimitState) (tr : List Effect) (msg : String)
    (h : 1 < rl.remaining)
    (hb : runBody now p (penvs idx) rl = .raised rl2 tr msg) :
    runLoop now penvs idx (p :: rest) rl count = ⟨rl2, count, tr, some msg⟩ := by
  rw [runLoop, if_neg (Nat.not_le.mpr h), hb]

theorem mainPhase_isProcessing (batchSize : Nat) (rl : RateLimitState)
    (q : UpdateQueue) (env : BatchEnv) :
    (mainPhase batchSize rl q env).state.queue.isProcessing = false := by
  unfold mainPhase
  rcases env.queryError with _ | e
  · by_cases h : (candidatesOf batchSize env).isEmpty <;>
      simp only [h] <;>
      rcases hesc : (runLoop env.now env.penvs 0 (candidatesOf batchSize env) rl 0).escaped
        with _ | m <;> simp [hesc]
  · rfl

theorem processProjectUpdates_run (st : GlobalState) (env : BatchEnv) (b : Nat)
    (hproc : st.queue.isProcessing = false)
    (hnb : ¬(st.rateLimit.remaining ≤ 1 ∧ env.now < st.rateLimit.reset)) :
    processProjectUpdates st env b =
      mainPhase b (rlAfterCheck st)
        { st.queue with isProcessing := true, currentBatchSize := b } env := by
  unfold processProjectUpdates rlAfterCheck
  rw [hproc]
  simp only [Bool.false_eq_true, if_false]
  by_cases h : st.rateLimit.remaining ≤ 1
  · rw [if_pos h, if_pos h, if_neg (fun hlt => hnb ⟨h, hlt⟩)]
  · rw [if_neg h, if_neg h]

/-! ### Claim theorems -/

/-- C4: while the coordinator's `isProcessing` flag is true, a call to
`processProjectUpdates` returns immediately with `processedCount = 0` and
`success = false`, issues no datastore call and no GitHub call (empty
trace), and leaves the module state untouched. -/
theorem C4_busy_rejection (st : GlobalState) (env : BatchEnv) (b : Nat)
    (hproc : st.queue.isProcessing = true) :
    processProjectUpdates st env b =
      ⟨⟨0, false, st.rateLimit.remaining, mkNextReset st.rateLimit.reset⟩, st, []⟩ := by
  unfold processProjectUpdates
  rw [hproc]
  rfl

/-- Witness for C4 at a concrete busy state. -/
theorem C4_busy_rejection_witness :
    stBusy.queue.isProcessing = true ∧
    processProjectUpdates stBusy envTrivial 5 =
      ⟨⟨0, false, 60, none⟩, stBusy, []⟩ :=
  ⟨rfl, C4_busy_rejection stBusy envTrivial 5 rfl⟩

/-- C3: with the guard free and the tracked remaining quota at most 1, a
reset time strictly in the future makes `processProjectUpdates` return
`processedCount = 0` with an empty trace (no GitHub call is issued), while
a reset time that has passed makes the run proceed into the main phase
with the remaining counter restored to the default 60. -/
theorem C3_entry_rate_check (st : GlobalState) (env : BatchEnv) (b : Nat)
    (hproc : st.queue.isProcessing = false)
    (hlow : st.rateLimit.remaining ≤ 1) :
    (env.now < st.rateLimit.reset →
      processProjectUpdates st env b =
        ⟨⟨0, false, st.rateLimit.remaining, some st.rateLimit.reset⟩,
         ⟨st.rateLimit,
          { st.queue with isProcessing := false, currentBatchSize := b }⟩, []⟩) ∧
    (st.rateLimit.reset ≤ env.now →
      processProjectUpdates st env b =
        mainPhase b { st.rateLimit with remaining := 60 }
          { st.queue with isProcessing := true, currentBatchSize := b } env) := by
  constructor
  · intro hfut
    unfold processProjectUpdates
    rw [hproc]
    simp only [Bool.false_eq_true, if_false, if_pos hlow, if_pos hfut]
  · intro hpast
    unfold processProjectUpdates
    rw [hproc]
    simp only [Bool.false_eq_true, if_false, if_pos hlow,
      if_neg (Nat.not_lt.mpr hpast)]

/-- Witness for C3: an exhausted counter whose reset time has passed leads
into the main phase with the counter restored to 60. -/
theorem C3_entry_rate_check_witness :
    stExhausted.queue.isProcessing = false ∧ stExhausted.rateLimit.remaining ≤ 1 ∧
    ((envTrivial.now < stExhausted.rateLimit.reset →
      processProjectUpdates stExhausted envTrivial 5 =
        ⟨⟨0, false, stExhausted.rateLimit.remaining, some stExhausted.rateLimit.reset⟩,
         ⟨stExhausted.rateLimit,
          { stExhausted.queue with isProcessing := false, currentBatchSize := 5 }⟩, []⟩) ∧
     (stExhausted.rateLimit.reset ≤ envTrivial.now →
      processProjectUpdates stExhausted envTrivial 5 =
        mainPhase 5 { stExhausted.rateLimit with remaining := 60 }
          { stExhausted.queue with isProcessing := true, currentBatchSize := 5 }
          envTrivial)) :=
  ⟨rfl, by decide, C3_entry_rate_check stExhausted envTrivial 5 rfl (by decide)⟩

/-- C7: a datastore error on the candidate select aborts the whole batch:
`processedCount = 0`, `success = false`, and the trace contains only the
select itself — no `project_updates` or `projects` write is issued. -/
theorem C7_query_error_aborts (st : GlobalState) (env : BatchEnv) (b : Nat)
    (emsg : String)
    (hproc : st.queue.isProcessing = false)
    (hnb : ¬(st.rateLimit.remaining ≤ 1 ∧ env.now < st.rateLimit.reset))
    (hqe : env.queryError = some emsg) :
    (processProjectUpdates st env b).result.processedCount = 0 ∧
    (processProjectUpdates st env b).result.success = false ∧
    (processProjectUpdates st env b).trace = [.dbSelect (min b 10)] := by
  rw [processProjectUpdates_run st env b hproc hnb]
  unfold mainPhase
  rw [hqe]
  exact ⟨rfl, rfl, rfl⟩

/-- Witness for C7 at a concrete failing select. -/
theorem C7_query_error_aborts_witness :
    stIdle.queue.isProcessing = false ∧
    ¬(stIdle.rateLimit.remaining ≤ 1 ∧ envQueryErr.now < stIdle.rateLimit.reset) ∧
    envQueryErr.queryError = some "db down" ∧
    ((processProjectUpdates stIdle envQueryErr 5).result.processedCount = 0 ∧
     (processProjectUpdates stIdle envQueryErr 5).result.success = false ∧
     (processProjectUpdates stIdle envQueryErr 5).trace = [.dbSelect 5]) :=
  ⟨rfl, by decide, rfl,
    C7_query_error_aborts stIdle envQueryErr 5 "db down" rfl (by decide) rfl⟩

/-- C9 counterexample: a busy-rejected invocation returns while the
in-flight batch still holds the guard, so `isProcessing` is not false
after that call returns. -/
theorem C9_counterexample :
    ¬((processProjectUpdates stBusy envTrivial 5).state.queue.isProcessing = false) := by
  decide

/-- C9 (amended): every invocation that actually acquires the guard
(`isProcessing` initially false) leaves `isProcessing = false` when it
returns, on every path — rate-limit rejection, datastore error, empty
batch, normal completion, and an exception escaping the loop; only a
busy-rejected call leaves the flag as it found it. -/
theorem C9_guard_released (st : GlobalState) (env : BatchEnv) (b : Nat)
    (hproc : st.queue.isProcessing = false) :
    (processProjectUpdates st env b).state.queue.isProcessing = false := by
  unfold processProjectUpdates
  rw [hproc]
  simp only [Bool.false_eq_true, if_false]
  by_cases h1 : st.rateLimit.remaining ≤ 1
  · rw [if_pos h1]
    by_cases h2 : env.now < st.rateLimit.reset
    · rw [if_pos h2]
    · rw [if_neg h2]
      exact mainPhase_isProcessing ..
  · rw [if_neg h1]
    exact mainPhase_isProcessing ..

/-- Witness for the amended C9 at a concrete idle state. -/
theorem C9_guard_released_witness :
    stIdle.queue.isProcessing = false ∧
    (processProjectUpdates stIdle envTrivial 5).state.queue.isProcessing = false :=
  ⟨rfl, C9_guard_released stIdle envTrivial 5 rfl⟩

/-- C6: the candidate query of a batch run selects at most `min b 10`
rows, only rows of the table that are stale (never refreshed, or refreshed
before the 24-hour cutoff), and returns them sorted nulls-first,
oldest-first. -/
theorem C6_candidate_query (b : Nat) (env : BatchEnv) :
    (candidatesOf b env).length ≤ min b 10 ∧
    (∀ c ∈ candidatesOf b env, c ∈ env.table ∧
      (c.last_updated = none ∨
        ∃ t, c.last_updated = some t ∧ t < env.now - 86400)) ∧
    List.Sorted candLE (candidatesOf b env) := by
  refine ⟨?_, ?_, ?_⟩
  · unfold candidatesOf selectCandidates
    rw [List.length_take]
    exact Nat.min_le_left _ _
  · intro c hc
    unfold candidatesOf selectCandidates at hc
    have hc2 := List.take_subset _ _ hc
    rw [(List.perm_insertionSort candLE _).mem_iff, List.mem_filter] at hc2
    refine ⟨hc2.1, ?_⟩
    have hs := hc2.2
    unfold isStale at hs
    rcases hlu : c.last_updated with _ | t
    · exact Or.inl rfl
    · rw [hlu] at hs
      exact Or.inr ⟨t, rfl, by simpa using hs⟩
  · unfold candidatesOf selectCandidates
    exact List.Pairwise.sublist (List.take_sublist _ _)
      (List.sorted_insertionSort candLE _)

/-- Witness for C6 at a concrete environment. -/
theorem C6_candidate_query_witness :
    (candidatesOf 5 envQuotaLow).length ≤ min 5 10 ∧
    (∀ c ∈ candidatesOf 5 envQuotaLow, c ∈ envQuotaLow.table ∧
      (c.last_updated = none ∨
        ∃ t, c.last_updated = some t ∧ t < envQuotaLow.now - 86400)) ∧
    List.Sorted candLE (candidatesOf 5 envQuotaLow) :=
  C6_candidate_query 5 envQuotaLow

/-- The repository fetch issues at most a `ghFetchRepo` call: its trace
never contains a `projects`-row update. -/
theorem fetch_trace_no_update (u : String) (fo : FetchOutcome) (n : String) :
    ∀ e ∈ (fetchGitHubRepository u fo).2, updatesRow n e = false := by
  unfold fetchGitHubRepository
  by_cases hlen : (urlPartsOf u).length < 2
  · simp [hlen]
  · cases fo with
    | throws => simp [hlen, updatesRow]
    | responds resp =>
      cases hok : resp.ok <;> simp [hlen, hok, updatesRow]

/-- A loop body whose repository fetch yields `null`, under succeeding
status writes, produces exactly the `in_progress` upsert, the fetch trace,
and a generic `failed` record, with the rate-limit state untouched and the
success counter not incremented. -/
theorem runBody_null_fetch (now : Nat) (p : Candidate) (env : ProjectEnv)
    (rl : RateLimitState)
    (hup : env.upsertInProgress = .ok ())
    (hwf : env.writeFailedNull = .ok ())
    (hnull : (fetchGitHubRepository p.url env.fetchRepo).1 = none) :
    runBody now p env rl =
      .done rl (.dbUpsertInProgress p.name ::
        ((fetchGitHubRepository p.url env.fetchRepo).2 ++
          [.dbWriteFailed p.name "Failed to fetch repository data"])) false := by
  rcases hfe : fetchGitHubRepository p.url env.fetchRepo with ⟨o, ftr⟩
  rw [hfe] at hnull
  simp only at hnull
  subst hnull
  unfold runBody tryBody
  rw [hup, hfe, hwf]
  rfl

/-- C5: when the Fetcher returns `null` for a candidate (which it does for
any non-success HTTP status and for a rejected fetch), the batch records a
`failed` status with the generic message for that project, issues no
update of the project's `projects` row, leaves the rate-limit state
unchanged, and the loop continues with the remaining candidates. -/
theorem C5_null_fetch_isolated (now : Nat) (penvs : Nat → ProjectEnv)
    (idx : Nat) (p : Candidate) (rest : List Candidate) (rl : RateLimitState)
    (count : Nat)
    (hrem : 1 < rl.remaining)
    (hup : (penvs idx).upsertInProgress = .ok ())
    (hwf : (penvs idx).writeFailedNull = .ok ())
    (hnull : (fetchGitHubRepository p.url (penvs idx).fetchRepo).1 = none) :
    runLoop now penvs idx (p :: rest) rl count =
      ⟨(runLoop now penvs (idx + 1) rest rl count).rl,
       (runLoop now penvs (idx + 1) rest rl count).count,
       (.dbUpsertInProgress p.name ::
         ((fetchGitHubRepository p.url (penvs idx).fetchRepo).2 ++
           [.dbWriteFailed p.name "Failed to fetch repository data"])) ++
         (runLoop now penvs (idx + 1) rest rl count).trace,
       (runLoop now penvs (idx + 1) rest rl count).escaped⟩ ∧
    (∀ e ∈ (.dbUpsertInProgress p.name ::
        ((fetchGitHubRepository p.url (penvs idx).fetchRepo).2 ++
          [.dbWriteFailed p.name "Failed to fetch repository data"]) : List Effect),
      updatesRow p.name e = false) ∧
    (∀ u, (fetchGitHubRepository u .throws).1 = none) ∧
    (∀ u r, r.ok = false → (fetchGitHubRepository u (.responds r)).1 = none) := by
  refine ⟨?_, ?_, ?_, ?_⟩
  · rw [runLoop_cons now penvs idx p rest rl count hrem,
      runBody_null_fetch now p (penvs idx) rl hup hwf hnull]
    rfl
  · intro e he
    rcases List.mem_cons.mp he with h | h
    · subst h; rfl
    · rcases List.mem_append.mp h with h2 | h2
      · exact fetch_trace_no_update p.url (penvs idx).fetchRepo p.name e h2
      · rcases List.mem_singleton.mp h2 with rfl
        rfl
  · intro u
    unfold fetchGitHubRepository
    by_cases hlen : (urlPartsOf u).length < 2 <;> simp [hlen]
  · intro u r hok
    unfold fetchGitHubRepository
    by_cases hlen : (urlPartsOf u).length < 2 <;> simp [hlen, hok]

/-- Witness for C5: a denied fetch at a concrete candidate. -/
theorem C5_null_fetch_isolated_witness :
    1 < (60 : Nat) ∧
    (runLoop 1000000 envDenied.penvs 0 [cand1] ⟨60, 0, 0⟩ 0 =
      ⟨⟨60, 0, 0⟩, 0,
       [.dbUpsertInProgress "p1",
        .ghFetchRepo "https://api.github.com/repos/u/r1",
        .dbWriteFailed "p1" "Failed to fetch repository data"], none⟩) := by
  refine ⟨by decide, ?_⟩
  have h := C5_null_fetch_isolated 1000000 envDenied.penvs 0 cand1 [] ⟨60, 0, 0⟩ 0
    (by decide) rfl rfl (by decide)
  rw [h.1]
  decide

/-! ### Counting started candidates -/

theorem attempts_append (a b : List Effect) :
    attempts (a ++ b) = attempts a + attempts b :=
  List.countP_append ..

theorem attempts_fetch (u : String) (fo : FetchOutcome) :
    attempts (fetchGitHubRepository u fo).2 = 0 := by
  unfold fetchGitHubRepository
  by_cases hlen : (urlPartsOf u).length < 2
  · simp [hlen, attempts]
  · cases fo with
    | throws => simp [hlen, attempts, isUpsertE]
    | responds resp =>
      cases hok : resp.ok <;> simp [hlen, hok, attempts, isUpsertE]

theorem attempts_langs (u : String) (lo : LangFetchOutcome) :
    attempts (fetchRepositoryLanguages u lo).2 = 0 := by
  cases lo with
  | throws => simp [fetchRepositoryLanguages, attempts, isUpsertE]
  | responds resp =>
    cases hok : resp.ok <;>
      simp [fetchRepositoryLanguages, hok, attempts, isUpsertE]

theorem attempts_tryTrace (now : Nat) (p : Candidate) (env : ProjectEnv)
    (rl : RateLimitState) :
    attempts (tryTrace (tryBody now p env rl)) = 1 := by
  unfold tryBody
  cases hup : env.upsertInProgress with
  | error msg => simp [tryTrace, attempts, isUpsertE]
  | ok _ =>
    rcases hfe : fetchGitHubRepository p.url env.fetchRepo with ⟨o, ftr⟩
    have hftr : attempts ftr = 0 := by
      have h := attempts_fetch p.url env.fetchRepo
      rw [hfe] at h
      exact h
    cases o with
    | none =>
      cases hw : env.writeFailedNull <;>
        simp_all [tryTrace, attempts, List.countP_append, List.countP_cons,
          isUpsertE]
    | some d =>
      rcases hlf : fetchRepositoryLanguages (d.languages_url.getD "") env.fetchLangs
        with ⟨lp, ltr⟩
      have hltr : attempts ltr = 0 := by
        have h := attempts_langs (d.languages_url.getD "") env.fetchLangs
        rw [hlf] at h
        exact h
      cases hjs : jsTruthy d.languages_url <;>
        rcases hupd : env.updateProject with msg | _ | emsg
      all_goals try cases hw1 : env.writeFailedDb
      all_goals try cases hw2 : env.writeCompleted
      all_goals
        simp_all [tryTrace, attempts, List.countP_append, List.countP_cons,
          isUpsertE]

theorem attempts_runBody (now : Nat) (p : Candidate) (env : ProjectEnv)
    (rl : RateLimitState) :
    attempts (runBody now p env rl).trOf = 1 := by
  have h := attempts_tryTrace now p env rl
  unfold runBody
  rcases htb : tryBody now p env rl with ⟨rl2, tr, msg⟩ | ⟨rl2, tr, counted⟩
  · rw [htb] at h
    simp only [tryTrace] at h
    cases hcw : env.catchWrite <;>
      simp [BodyResult.trOf, attempts, List.countP_append, List.countP_cons,
        isUpsertE, h, attempts_append] <;>
      exact h
  · rw [htb] at h
    simpa [BodyResult.trOf, tryTrace] using h

/-! ### Prefix runs of the loop -/

theorem runLoop_take_eq (now : Nat) (penvs : Nat → ProjectEnv) :
    ∀ (K : Nat) (cs : List Candidate) (idx : Nat) (rl : RateLimitState)
      (count : Nat),
      ((runLoop now penvs idx (cs.take K) rl count).escaped = none →
        (runLoop now penvs idx (cs.take K) rl count).rl.remaining ≤ 1) →
      runLoop now penvs idx cs rl count =
        runLoop now penvs idx (cs.take K) rl count := by
  intro K
  induction K with
  | zero =>
    intro cs idx rl count hblock
    rw [List.take_zero] at hblock ⊢
    rw [runLoop_nil] at hblock
    have hrem : rl.remaining ≤ 1 := hblock rfl
    cases cs with
    | nil => rfl
    | cons p rest =>
      rw [runLoop_break now penvs idx p rest rl count hrem, runLoop_nil]
  | succ K ih =>
    intro cs idx rl count hblock
    cases cs with
    | nil => rfl
    | cons p rest =>
      rw [List.take_succ_cons] at hblock ⊢
      by_cases hrem : rl.remaining ≤ 1
      · rw [runLoop_break now penvs idx p rest rl count hrem,
          runLoop_break now penvs idx p (rest.take K) rl count hrem]
      · have hlt : 1 < rl.remaining := Nat.not_le.mp hrem
        cases hb : runBody now p (penvs idx) rl with
        | done rl2 tr counted =>
          rw [runLoop_cons_done now penvs idx p rest rl count rl2 tr counted
              hlt hb,
            runLoop_cons_done now penvs idx p (rest.take K) rl count rl2 tr
              counted hlt hb]
          rw [runLoop_cons_done now penvs idx p (rest.take K) rl count rl2 tr
              counted hlt hb] at hblock
          have ihh := ih rest (idx + 1) rl2 (count + (if counted then 1 else 0))
            (fun hesc => hblock hesc)
          rw [ihh]
        | raised rl2 tr msg =>
          rw [runLoop_cons_raised now penvs idx p rest rl count rl2 tr msg
              hlt hb,
            runLoop_cons_raised now penvs idx p (rest.take K) rl count rl2 tr
              msg hlt hb]

theorem runLoop_exact (now : Nat) (penvs : Nat → ProjectEnv) :
    ∀ (K : Nat) (cs : List Candidate) (idx : Nat) (rl : RateLimitState)
      (count : Nat),
      K ≤ cs.length →
      (runLoop now penvs idx (cs.take K) rl count).escaped = none →
      (∀ j < K, 1 < (runLoop now penvs idx (cs.take j) rl count).rl.remaining) →
      attempts (runLoop now penvs idx (cs.take K) rl count).trace = K := by
  intro K
  induction K with
  | zero =>
    intro cs idx rl count _ _ _
    rw [List.take_zero, runLoop_nil]
    rfl
  | succ K ih =>
    intro cs idx rl count hK hesc hpre
    cases cs with
    | nil => simp at hK
    | cons p rest =>
      have hlt : 1 < rl.remaining := by
        have h0 := hpre 0 (Nat.succ_pos K)
        rw [List.take_zero, runLoop_nil] at h0
        exact h0
      rw [List.take_succ_cons] at hesc ⊢
      cases hb : runBody now p (penvs idx) rl with
      | done rl2 tr counted =>
        rw [runLoop_cons_done now penvs idx p (rest.take K) rl count rl2 tr
            counted hlt hb] at hesc ⊢
        have htr : attempts tr = 1 := by
          have h := attempts_runBody now p (penvs idx) rl
          rw [hb] at h
          exact h
        rw [attempts_append, htr]
        have ihh := ih rest (idx + 1) rl2 (count + (if counted then 1 else 0))
          (Nat.le_of_succ_le_succ hK) hesc ?_
        · rw [ihh]
          omega
        · intro j hj
          have hpj := hpre (j + 1) (Nat.succ_lt_succ hj)
          rw [List.take_succ_cons,
            runLoop_cons_done now penvs idx p (rest.take j) rl count rl2 tr
              counted hlt hb] at hpj
          exact hpj
      | raised rl2 tr msg =>
        rw [runLoop_cons_raised now penvs idx p (rest.take K) rl count rl2 tr
            msg hlt hb] at hesc
        simp at hesc

/-! ### Outcome of the main phase -/

theorem mainPhase_normal (b : Nat) (rl : RateLimitState) (q : UpdateQueue)
    (env : BatchEnv)
    (hq : env.queryError = none)
    (hne : (candidatesOf b env).isEmpty = false)
    (hesc : (runLoop env.now env.penvs 0 (candidatesOf b env) rl 0).escaped =
      none) :
    mainPhase b rl q env =
      ⟨⟨(runLoop env.now env.penvs 0 (candidatesOf b env) rl 0).count, true,
        (runLoop env.now env.penvs 0 (candidatesOf b env) rl 0).rl.remaining,
        mkNextReset (runLoop env.now env.penvs 0 (candidatesOf b env) rl 0).rl.reset⟩,
       ⟨(runLoop env.now env.penvs 0 (candidatesOf b env) rl 0).rl,
        { q with isProcessing := false, lastRun := env.now }⟩,
       .dbSelect (min b 10) ::
         (runLoop env.now env.penvs 0 (candidatesOf b env) rl 0).trace⟩ := by
  unfold mainPhase
  rw [hq]
  simp only [hne, Bool.false_eq_true, if_false, hesc]
  rfl

theorem mainPhase_escaped (b : Nat) (rl : RateLimitState) (q : UpdateQueue)
    (env : BatchEnv) (msg : String)
    (hq : env.queryError = none)
    (hesc : (runLoop env.now env.penvs 0 (candidatesOf b env) rl 0).escaped =
      some msg) :
    mainPhase b rl q env =
      ⟨⟨0, false,
        (runLoop env.now env.penvs 0 (candidatesOf b env) rl 0).rl.remaining,
        mkNextReset (runLoop env.now env.penvs 0 (candidatesOf b env) rl 0).rl.reset⟩,
       ⟨(runLoop env.now env.penvs 0 (candidatesOf b env) rl 0).rl,
        { q with isProcessing := false }⟩,
       .dbSelect (min b 10) ::
         (runLoop env.now env.penvs 0 (candidatesOf b env) rl 0).trace⟩ := by
  have hne : (candidatesOf b env).isEmpty = false := by
    cases hcs : candidatesOf b env with
    | nil =>
      rw [hcs, runLoop_nil] at hesc
      simp at hesc
    | cons a l => rfl
  unfold mainPhase
  rw [hq]
  simp only [hne, Bool.false_eq_true, if_false, hesc]
  rfl

/-- C1: if, for some `K` not exceeding the number of candidates, the quota
tracked after processing the first `K` candidates has dropped to at most 1
while it exceeded 1 at the top of each of those `K` iterations (and no
exception escaped them), then the batch run is identical to the run of
just those `K` candidates — the `K`-th project is completed and nobody
after it is touched — exactly `K` candidates are started, the returned
`processedCount` is the count accumulated over those `K`, and the batch
reports success. -/
theorem C1_quota_stops_batch (st : GlobalState) (env : BatchEnv) (b K : Nat)
    (hproc : st.queue.isProcessing = false)
    (hrem0 : 1 < st.rateLimit.remaining)
    (hq : env.queryError = none)
    (hK : K ≤ (candidatesOf b env).length)
    (hesc : (runLoop env.now env.penvs 0 ((candidatesOf b env).take K)
        st.rateLimit 0).escaped = none)
    (hlow : (runLoop env.now env.penvs 0 ((candidatesOf b env).take K)
        st.rateLimit 0).rl.remaining ≤ 1)
    (hpre : ∀ j < K, 1 < (runLoop env.now env.penvs 0
        ((candidatesOf b env).take j) st.rateLimit 0).rl.remaining) :
    runLoop env.now env.penvs 0 (candidatesOf b env) st.rateLimit 0 =
      runLoop env.now env.penvs 0 ((candidatesOf b env).take K)
        st.rateLimit 0 ∧
    attempts (processProjectUpdates st env b).trace = K ∧
    (processProjectUpdates st env b).result.processedCount =
      (runLoop env.now env.penvs 0 ((candidatesOf b env).take K)
        st.rateLimit 0).count ∧
    (processProjectUpdates st env b).result.success = true := by
  have hfull := runLoop_take_eq env.now env.penvs K (candidatesOf b env) 0
    st.rateLimit 0 (fun _ => hlow)
  have hatt := runLoop_exact env.now env.penvs K (candidatesOf b env) 0
    st.rateLimit 0 hK hesc hpre
  have hK0 : K ≠ 0 := by
    intro h0
    subst h0
    rw [List.take_zero, runLoop_nil] at hlow
    exact absurd (Nat.lt_of_lt_of_le hrem0 hlow) (Nat.lt_irrefl 1)
  have hne : (candidatesOf b env).isEmpty = false := by
    cases hcs : candidatesOf b env with
    | nil =>
      rw [hcs] at hK
      simp at hK
      omega
    | cons a l => rfl
  have hnb : ¬(st.rateLimit.remaining ≤ 1 ∧ env.now < st.rateLimit.reset) :=
    fun h => absurd h.1 (Nat.not_le.mpr hrem0)
  have hrl : rlAfterCheck st = st.rateLimit := by
    unfold rlAfterCheck
    rw [if_neg (Nat.not_le.mpr hrem0)]
  have hesc2 : (runLoop env.now env.penvs 0 (candidatesOf b env)
      st.rateLimit 0).escaped = none := by
    rw [hfull]
    exact hesc
  have hmain := mainPhase_normal b st.rateLimit
    { st.queue with isProcessing := true, currentBatchSize := b } env hq hne hesc2
  have hrun := processProjectUpdates_run st env b hproc hnb
  rw [hrl] at hrun
  rw [hrun, hmain]
  refine ⟨hfull, ?_, ?_, rfl⟩
  · show attempts (.dbSelect (min b 10) ::
      (runLoop env.now env.penvs 0 (candidatesOf b env) st.rateLimit 0).trace) = K
    rw [hfull]
    unfold attempts
    rw [List.countP_cons_of_neg _ _ (by simp [isUpsertE])]
    exact hatt
  · show (runLoop env.now env.penvs 0 (candidatesOf b env)
      st.rateLimit 0).count = _
    rw [hfull]

/-- Witness for C1: two stale candidates, and the first project's fetch
reports one remaining request; the batch starts exactly one candidate. -/
theorem C1_quota_stops_batch_witness :
    (candidatesOf 5 envQuotaLow).length = 2 ∧
    (runLoop envQuotaLow.now envQuotaLow.penvs 0 (candidatesOf 5 envQuotaLow)
        stIdle.rateLimit 0 =
      runLoop envQuotaLow.now envQuotaLow.penvs 0
        ((candidatesOf 5 envQuotaLow).take 1) stIdle.rateLimit 0 ∧
     attempts (processProjectUpdates stIdle envQuotaLow 5).trace = 1 ∧
     (processProjectUpdates stIdle envQuotaLow 5).result.processedCount =
       (runLoop envQuotaLow.now envQuotaLow.penvs 0
         ((candidatesOf 5 envQuotaLow).take 1) stIdle.rateLimit 0).count ∧
     (processProjectUpdates stIdle envQuotaLow 5).result.success = true) :=
  ⟨by decide,
   C1_quota_stops_batch stIdle envQuotaLow 5 1 rfl (by decide) rfl (by decide)
     (by decide) (by decide) (by decide)⟩

/-- C10: if an exception escapes the per-project loop, the outer handler
reports `processedCount = 0` and `success = false` even though the loop
had already counted at least one successful update; the reported count
under-reports the updates actually performed. -/
theorem C10_escape_zeroes_count (st : GlobalState) (env : BatchEnv)
    (b : Nat) (msg : String)
    (hproc : st.queue.isProcessing = false)
    (hnb : ¬(st.rateLimit.remaining ≤ 1 ∧ env.now < st.rateLimit.reset))
    (hq : env.queryError = none)
    (hesc : (runLoop env.now env.penvs 0 (candidatesOf b env)
        (rlAfterCheck st) 0).escaped = some msg)
    (hcount : 1 ≤ (runLoop env.now env.penvs 0 (candidatesOf b env)
        (rlAfterCheck st) 0).count) :
    (processProjectUpdates st env b).result.processedCount = 0 ∧
    (processProjectUpdates st env b).result.success = false ∧
    (processProjectUpdates st env b).result.processedCount <
      (runLoop env.now env.penvs 0 (candidatesOf b env)
        (rlAfterCheck st) 0).count := by
  rw [processProjectUpdates_run st env b hproc hnb,
    mainPhase_escaped b (rlAfterCheck st)
      { st.queue with isProcessing := true, currentBatchSize := b } env msg hq
      hesc]
  exact ⟨rfl, rfl, hcount⟩

/-- Witness for C10: the first candidate is updated and counted, the
second candidate's processing lets an exception escape; the batch reports
zero processed. -/
theorem C10_escape_zeroes_count_witness :
    (runLoop envEscapes.now envEscapes.penvs 0 (candidatesOf 5 envEscapes)
        (rlAfterCheck stIdle) 0).count = 1 ∧
    (processProjectUpdates stIdle envEscapes 5).result.processedCount = 0 ∧
    (processProjectUpdates stIdle envEscapes 5).result.success = false ∧
    (processProjectUpdates stIdle envEscapes 5).result.processedCount <
      (runLoop envEscapes.now envEscapes.penvs 0 (candidatesOf 5 envEscapes)
        (rlAfterCheck stIdle) 0).count :=
  ⟨by decide,
   C10_escape_zeroes_count stIdle envEscapes 5 "catch write failed" rfl
     (by decide) rfl (by decide) (by decide)⟩

/-- C8: an exception thrown while processing one candidate (here: the
`try` block ends in `Except.error`) is caught by the per-project handler:
when the handler's failure write succeeds, the body completes normally
with a `failed` record carrying the exception's message and no count
increment, the loop goes on to the remaining candidates, and a batch whose
loop ends without an escaping exception still returns `success = true`. -/
theorem C8_exception_isolated (now : Nat) (penvs : Nat → ProjectEnv)
    (idx : Nat) (p : Candidate) (rest : List Candidate)
    (rl rl2 : RateLimitState) (tr : List Effect) (msg : String) (count : Nat)
    (htry : tryBody now p (penvs idx) rl = .error (rl2, tr, msg))
    (hcw : (penvs idx).catchWrite = .ok ())
    (hrem : 1 < rl.remaining) :
    runBody now p (penvs idx) rl =
      .done rl2 (tr ++ [.dbWriteFailed p.name msg]) false ∧
    runLoop now penvs idx (p :: rest) rl count =
      ⟨(runLoop now penvs (idx + 1) rest rl2 count).rl,
       (runLoop now penvs (idx + 1) rest rl2 count).count,
       (tr ++ [.dbWriteFailed p.name msg]) ++
         (runLoop now penvs (idx + 1) rest rl2 count).trace,
       (runLoop now penvs (idx + 1) rest rl2 count).escaped⟩ ∧
    (∀ (st : GlobalState) (benv : BatchEnv) (b : Nat),
      st.queue.isProcessing = false →
      ¬(st.rateLimit.remaining ≤ 1 ∧ benv.now < st.rateLimit.reset) →
      benv.queryError = none →
      (runLoop benv.now benv.penvs 0 (candidatesOf b benv)
        (rlAfterCheck st) 0).escaped = none →
      (processProjectUpdates st benv b).result.success = true) := by
  have hbody : runBody now p (penvs idx) rl =
      .done rl2 (tr ++ [.dbWriteFailed p.name msg]) false := by
    unfold runBody
    rw [htry, hcw]
  refine ⟨hbody, ?_, ?_⟩
  · rw [runLoop_cons_done now penvs idx p rest rl count rl2
      (tr ++ [.dbWriteFailed p.name msg]) false hrem hbody]
    simp
  · intro st benv b hproc hnb hq hesc
    rw [processProjectUpdates_run st benv b hproc hnb]
    by_cases hne : (candidatesOf b benv).isEmpty
    · unfold mainPhase
      rw [hq]
      simp only [hne, if_true]
    · rw [mainPhase_normal b (rlAfterCheck st)
        { st.queue with isProcessing := true, currentBatchSize := b } benv hq
        (Bool.not_eq_true _ ▸ hne) hesc]

/-- Witness for C8: a rejected `projects`-row update throws `boom`, which
is caught and recorded; the surrounding batch still reports success. -/
theorem C8_exception_isolated_witness :
    runBody 1000000 cand2 (envThrows.penvs 1) ⟨60, 0, 0⟩ =
      .done ⟨29, 778, 1000000⟩
        ([.dbUpsertInProgress "p2",
          .ghFetchRepo "https://api.github.com/repos/u/r2",
          .ghFetchLangs "https://api.github.com/repos/u/r1/languages",
          .dbUpdateProject "p2" 10 2 "d" [("TypeScript", 1234)] 1000000] ++
         [.dbWriteFailed "p2" "boom"]) false ∧
    (processProjectUpdates stIdle envThrows 5).result.success = true := by
  have h := C8_exception_isolated 1000000 envThrows.penvs 1 cand2 []
    ⟨60, 0, 0⟩ ⟨29, 778, 1000000⟩
    [.dbUpsertInProgress "p2",
     .ghFetchRepo "https://api.github.com/repos/u/r2",
     .ghFetchLangs "https://api.github.com/repos/u/r1/languages",
     .dbUpdateProject "p2" 10 2 "d" [("TypeScript", 1234)] 1000000]
    "boom" 0 (by rfl) rfl (by decide)
  exact ⟨h.1, h.2.2 stIdle envThrows 5 rfl (by decide) rfl (by decide)⟩

/-- C2 counterexample: a repository-metadata call is made (it is in the
trace) and its response carries `x-ratelimit-remaining: 5` /
`x-ratelimit-reset: 999`, yet because the HTTP status is a failure the
run ends with the rate-limit state untouched at its initial value
`⟨60, 0, 0⟩` — the state is not updated from the headers of this call. -/
theorem C2_counterexample :
    Effect.ghFetchRepo "https://api.github.com/repos/u/r1" ∈
      (processProjectUpdates stIdle envDenied 5).trace ∧
    (envDenied.penvs 0).fetchRepo = FetchOutcome.responds respDenied ∧
    respDenied.ok = false ∧
    respDenied.headers.xRateLimitRemaining = some 5 ∧
    respDenied.headers.xRateLimitReset = some 999 ∧
    (processProjectUpdates stIdle envDenied 5).state.rateLimit = ⟨60, 0, 0⟩ := by
  decide

theorem runBody_rl_null (now : Nat) (p : Candidate) (env : ProjectEnv)
    (rl : RateLimitState)
    (hnull : (fetchGitHubRepository p.url env.fetchRepo).1 = none) :
    (runBody now p env rl).rlOf = rl := by
  unfold runBody tryBody
  cases hup : env.upsertInProgress with
  | error msg =>
    cases hcw : env.catchWrite <;> simp [BodyResult.rlOf]
  | ok _ =>
    rcases hfe : fetchGitHubRepository p.url env.fetchRepo with ⟨o, ftr⟩
    rw [hfe] at hnull
    simp only at hnull
    subst hnull
    cases hw : env.writeFailedNull with
    | error msg => cases hcw : env.catchWrite <;> simp [BodyResult.rlOf]
    | ok _ => simp [BodyResult.rlOf]

theorem runBody_rl_some (now : Nat) (p : Candidate) (env : ProjectEnv)
    (rl : RateLimitState) (d : GitHubRepoData) (ftr : List Effect)
    (hup : env.upsertInProgress = .ok ())
    (hfe : fetchGitHubRepository p.url env.fetchRepo = (some d, ftr)) :
    (runBody now p env rl).rlOf =
      (if jsTruthy d.languages_url then
        updateFromHeaders now (updateFromHeaders now rl d.rateLimit)
          (fetchRepositoryLanguages (d.languages_url.getD "")
            env.fetchLangs).1.2
      else updateFromHeaders now rl d.rateLimit) := by
  unfold runBody tryBody
  rw [hup, hfe]
  cases hjs : jsTruthy d.languages_url <;>
    rcases hupd : env.updateProject with msg | _ | emsg
  all_goals try cases hw1 : env.writeFailedDb
  all_goals try cases hw2 : env.writeCompleted
  all_goals try cases hcw : env.catchWrite
  all_goals simp [BodyResult.rlOf, hjs, hupd]

theorem fetch_first_none_of_short (u : String) (fo : FetchOutcome)
    (hlen : (urlPartsOf u).length < 2) :
    (fetchGitHubRepository u fo).1 = none := by
  unfold fetchGitHubRepository
  simp [hlen]

theorem fetch_first_none_of_notok (u : String) (r : RepoResponse)
    (hok : r.ok = false) :
    (fetchGitHubRepository u (.responds r)).1 = none := by
  unfold fetchGitHubRepository
  by_cases hlen : (urlPartsOf u).length < 2 <;> simp [hlen, hok]

theorem fetch_responds_ok_eq (u : String) (r : RepoResponse)
    (hlen : ¬(urlPartsOf u).length < 2) (hok : r.ok = true) :
    fetchGitHubRepository u (.responds r) =
      (some ⟨r.stargazers_count, r.forks_count, r.description,
        r.languages_url, some (parseRateLimitFromHeaders r.headers)⟩,
       [.ghFetchRepo ("https://api.github.com/repos/" ++
         (urlPartsOf u).getD 0 "" ++ "/" ++ (urlPartsOf u).getD 1 "")]) := by
  unfold fetchGitHubRepository
  simp [hlen, hok]

theorem fetch_responds_inv (u : String) (r : RepoResponse)
    (d : GitHubRepoData) (ftr : List Effect)
    (h : fetchGitHubRepository u (.responds r) = (some d, ftr)) :
    d.rateLimit = some (parseRateLimitFromHeaders r.headers) ∧
    d.languages_url = r.languages_url := by
  have h1 : (fetchGitHubRepository u (FetchOutcome.responds r)).1 = some d := by
    rw [h]
  by_cases hlen : (urlPartsOf u).length < 2
  · rw [fetch_first_none_of_short u _ hlen] at h1
    simp at h1
  · cases hok : r.ok with
    | false =>
      rw [fetch_first_none_of_notok u r hok] at h1
      simp at h1
    | true =>
      rw [fetch_responds_ok_eq u r hlen hok] at h1
      simp only at h1
      have h2 := Option.some.inj h1
      rw [← h2]
      exact ⟨rfl, rfl⟩

/-- C2 (amended): the rate-limit state is updated from response headers
only after *successful* GitHub calls.  After a successful metadata call
the headers of that call are taken (and stamped with `lastChecked = now`);
after a successful languages call its headers replace them; a metadata
call that fails leaves the state entirely unchanged; a languages call that
fails (non-ok status or rejected fetch) merely decrements the remaining
counter by one instead of using its headers. -/
theorem C2_headers_on_success (now : Nat) (p : Candidate) (env : ProjectEnv)
    (rl : RateLimitState)
    (hup : env.upsertInProgress = .ok ()) :
    ((fetchGitHubRepository p.url env.fetchRepo).1 = none →
      (runBody now p env rl).rlOf = rl) ∧
    (∀ r d ftr, env.fetchRepo = .responds r →
      fetchGitHubRepository p.url env.fetchRepo = (some d, ftr) →
      (jsTruthy d.languages_url = false →
        (runBody now p env rl).rlOf =
          ⟨r.headers.xRateLimitRemaining.getD 0,
           r.headers.xRateLimitReset.getD 0, now⟩) ∧
      (∀ lr, jsTruthy d.languages_url = true →
        env.fetchLangs = .responds lr → lr.ok = true →
        (runBody now p env rl).rlOf =
          ⟨lr.headers.xRateLimitRemaining.getD 0,
           lr.headers.xRateLimitReset.getD 0, now⟩) ∧
      (jsTruthy d.languages_url = true →
        (env.fetchLangs = .throws ∨
          ∃ lr, env.fetchLangs = .responds lr ∧ lr.ok = false) →
        (runBody now p env rl).rlOf =
          ⟨r.headers.xRateLimitRemaining.getD 0 - 1,
           r.headers.xRateLimitReset.getD 0, now⟩)) := by
  refine ⟨fun hnull => runBody_rl_null now p env rl hnull, ?_⟩
  intro r d ftr hresp hfe
  obtain ⟨hdrl, _⟩ := fetch_responds_inv p.url r d ftr (hresp ▸ hfe)
  have hbase := runBody_rl_some now p env rl d ftr hup hfe
  refine ⟨?_, ?_, ?_⟩
  · intro hjs
    rw [hbase, if_neg (by simp [hjs]), hdrl]
    rfl
  · intro lr hjs hlresp hlok
    rw [hbase, if_pos hjs, hdrl, hlresp]
    unfold fetchRepositoryLanguages
    simp only [hlok, Bool.not_true, Bool.false_eq_true, if_false]
    rfl
  · intro hjs hfail
    rw [hbase, if_pos hjs, hdrl]
    rcases hfail with hthrow | ⟨lr, hlresp, hlok⟩
    · rw [hthrow]
      rfl
    · rw [hlresp]
      unfold fetchRepositoryLanguages
      simp only [hlok, Bool.not_false, if_true]
      rfl

/-- Witness for the amended C2: both calls succeed and the state ends at
the languages call's header values. -/
theorem C2_headers_on_success_witness :
    (runBody 1000000 cand1 peBothOk ⟨60, 0, 0⟩).rlOf = ⟨29, 778, 1000000⟩ := by
  have h := C2_headers_on_success 1000000 cand1 peBothOk ⟨60, 0, 0⟩ rfl
  exact (h.2 respWithLangs
    ⟨10, 2, some "d", some "https://api.github.com/repos/u/r1/languages",
      some ⟨60, 30, 777⟩⟩
    [.ghFetchRepo "https://api.github.com/repos/u/r1"] rfl (by rfl)).2.1
    respLangs rfl rfl rfl

end Codegems
